import Mathlib

/-!
Shallow embedding of the cilantro library (TypeScript, Bun runtime):
a thin abstraction layer over locally installed AI-agent CLIs.

Modelling conventions:
* JavaScript runtime values that flow through untyped casts are modelled by
  `JsValue`; JS truthiness and the `typeof` checks used by the source are
  modelled explicitly.
* The file system is modelled as the state of the single configuration file:
  `Option FileContent`, where `FileContent` is either a malformed text
  (JSON.parse throws) or the parsed projection of the JSON document onto the
  three fields the source reads.  The spec declares the JSON persistence
  mechanics out of scope, so `saveConfig` produces directly the parsed image
  of the document it writes.
* Subprocess spawning is modelled by an environment `ProcEnv` mapping each
  spawn plan (argv, cwd, timeout) to its outcome: the spawn call throwing,
  the process finishing before the deadline, or the process being forcibly
  killed when the timeout fires (carrying whatever exit code the runtime
  reports for the killed process).  `JSON.parse` on process output is part of
  the environment as well.
* Promises are evaluated to their results; `async` functions that never
  reject become total functions, and functions that may `throw` return
  `Except`.
-/

namespace Cilantro

/-- A JavaScript/JSON runtime value (as produced by JSON.parse). -/
inductive JsValue where
  | null
  | bool (b : Bool)
  | num (n : Int)
  | str (s : String)
  | arr (elements : List JsValue)
  | obj (fields : List (String × JsValue))
deriving Repr, BEq

/-- JS truthiness of a value. -/
def truthy : JsValue → Bool
  | .null => false
  | .bool b => b
  | .num n => n != 0
  | .str s => s != ""
  | .arr _ => true
  | .obj _ => true

/-- JS `typeof v === "object"` (true for null, arrays and objects). -/
def typeofObject : JsValue → Bool
  | .null => true
  | .arr _ => true
  | .obj _ => true
  | _ => false

/-- JS `typeof v === "number"`. -/
def typeofNumber : JsValue → Bool
  | .num _ => true
  | _ => false

/-- JS property access on a parsed JSON value; `none` models `undefined`. -/
def getField : JsValue → String → Option JsValue
  | .obj fields, key => fields.lookup key
  | _, _ => none

/-- Truthiness of a possibly-undefined value (`undefined` is falsy). -/
def truthyOpt : Option JsValue → Bool
  | none => false
  | some v => truthy v

/-- `typeof v === "object"` where `v` may be `undefined`. -/
def typeofObjectOpt : Option JsValue → Bool
  | none => false
  | some v => typeofObject v

/-- `typeof v === "number"` where `v` may be `undefined`. -/
def typeofNumberOpt : Option JsValue → Bool
  | none => false
  | some v => typeofNumber v

/-- The projection of the parsed configuration JSON document onto the three
fields read by `config.ts` (each `none` when the document, cast to
`CilantroConfig`, lacks the field — e.g. when the document is not an
object). -/
structure RawConfig where
  defaultBackend : Option JsValue
  backends : Option JsValue
  timeout : Option JsValue
deriving Repr, BEq

/-- Content of the configuration file when it exists: either text on which
JSON.parse throws a SyntaxError, or the parsed document. -/
inductive FileContent where
  | malformed (message : String)
  | parsed (config : RawConfig)
deriving Repr, BEq

/-- `loadConfig` from `config.ts`: `ok none` when no file exists, an error
when the file is malformed JSON or fails the three field validations,
otherwise the parsed configuration. -/
def loadConfig : Option FileContent → Except String (Option RawConfig)
  | none => .ok none
  | some (.malformed message) =>
      .error ("Invalid JSON in config file: " ++ message)
  | some (.parsed c) =>
      if !truthyOpt c.defaultBackend then
        .error "Config missing defaultBackend field"
      else if !truthyOpt c.backends || !typeofObjectOpt c.backends then
        .error "Config missing or invalid backends field"
      else if !typeofNumberOpt c.timeout then
        .error "Config missing or invalid timeout field"
      else
        .ok (some c)

/-- `isInitialized` from `config.ts`: false when the file is missing, else
true exactly when `loadConfig` does not throw. -/
def isInitialized (file : Option FileContent) : Bool :=
  match file with
  | none => false
  | some f =>
      match loadConfig (some f) with
      | .ok _ => true
      | .error _ => false

/-- `BackendConfig` from `types.ts`. -/
structure BackendConfig where
  command : String
  args : List String
deriving Repr, BEq

/-- `CilantroConfig` from `types.ts`; the record-typed backends map is
modelled as an association list in insertion order. -/
structure CilantroConfig where
  defaultBackend : String
  backends : List (String × BackendConfig)
  timeout : Int
deriving Repr, BEq

/-- JSON image of one `BackendConfig`. -/
def encodeBackendConfig (bc : BackendConfig) : JsValue :=
  .obj [("command", .str bc.command), ("args", .arr (bc.args.map .str))]

/-- JSON image of a `CilantroConfig`, as `JSON.parse` re-reads what
`JSON.stringify` wrote. -/
def encodeConfig (c : CilantroConfig) : RawConfig :=
  { defaultBackend := some (.str c.defaultBackend)
  , backends := some (.obj (c.backends.map (fun p => (p.1, encodeBackendConfig p.2))))
  , timeout := some (.num c.timeout) }

/-- `saveConfig` from `config.ts`: serializes the configuration and replaces
the file content in full (no merge with the prior content). -/
def saveConfig (c : CilantroConfig) (_prior : Option FileContent) : Option FileContent :=
  some (.parsed (encodeConfig c))

/-- Read back a list of JSON strings. -/
def decodeStrings : List JsValue → Option (List String)
  | [] => some []
  | .str s :: rest => (decodeStrings rest).map (fun l => s :: l)
  | _ => none

/-- Read back one backend launch spec from its JSON image. -/
def decodeBackendConfig : JsValue → Option BackendConfig
  | .obj [("command", .str cmd), ("args", .arr argValues)] =>
      (decodeStrings argValues).map (fun l => { command := cmd, args := l })
  | _ => none

/-- Read back the backends map from its JSON image. -/
def decodeBackends : List (String × JsValue) → Option (List (String × BackendConfig))
  | [] => some []
  | (n, v) :: rest =>
      match decodeBackendConfig v, decodeBackends rest with
      | some bc, some l => some ((n, bc) :: l)
      | _, _ => none

/-- Read back a typed `CilantroConfig` from a parsed document; `some` exactly
when the document is structurally a configuration. -/
def decodeConfig (c : RawConfig) : Option CilantroConfig :=
  match c.defaultBackend, c.backends, c.timeout with
  | some (.str db), some (.obj bs), some (.num t) =>
      (decodeBackends bs).map (fun l => { defaultBackend := db, backends := l, timeout := t })
  | _, _, _ => none

/-- `BackendCapabilities` from `types.ts`. -/
structure BackendCapabilities where
  canReadCodebase : Bool
  supportsHeadless : Bool
  supportsJsonOutput : Bool
deriving Repr, BEq

/-- `ExecuteOptions` from `types.ts`. -/
structure ExecuteOptions where
  prompt : String
  workingDirectory : String
  timeout : Option Int
deriving Repr, BEq

/-- `ExecutionResult` from `types.ts`.  The `output` field is typed `string`
in the source, but the untyped JSON field extraction in the claude adapter
can place any runtime value there, so it is modelled as `JsValue`. -/
structure ExecutionResult where
  success : Bool
  backend : String
  output : JsValue
  stdout : String
  stderr : String
  exitCode : Int
  error : Option String
deriving Repr, BEq

/-- One subprocess request: argv, optional working directory override, and
the timeout armed at spawn time (none for the detection probes, which arm no
timer). -/
structure SpawnPlan where
  cmd : List String
  cwd : Option String
  timeoutMs : Option Int
deriving Repr, BEq

/-- Outcome of running one spawn plan, as observed by the adapter code:
`Bun.spawn` throwing, the process exiting on its own before the deadline, or
the process being forcibly killed when the timeout fires.  In the killed
case `exitCode` is whatever `proc.exited` resolves to for the killed
process (runtime/OS determined), and `stdout`/`stderr` are the partial
streams captured up to the kill. -/
inductive SpawnOutcome where
  | spawnError (message : String)
  | finished (exitCode : Int) (stdout stderr : String)
  | killedOnTimeout (exitCode : Int) (stdout stderr : String)
deriving Repr, BEq

/-- The process environment: how the OS answers each spawn plan, and what
`JSON.parse` yields on a given text (`none` models a SyntaxError). -/
structure ProcEnv where
  run : SpawnPlan → SpawnOutcome
  jsonParse : String → Option JsValue

/-- JS `a || b` on a possibly-undefined left operand. -/
def jsOrV (a : Option JsValue) (b : JsValue) : JsValue :=
  match a with
  | some v => if truthy v then v else b
  | none => b

/-- Spawn plan built by `ClaudeBackend.execute`: destructuring default
`timeout = 120000` applies exactly when the field is absent. -/
def claudeSpawnPlan (options : ExecuteOptions) : SpawnPlan :=
  { cmd := ["claude", "-p", "--output-format", "json", options.prompt]
  , cwd := some options.workingDirectory
  , timeoutMs := some (options.timeout.getD 120000) }

/-- Output normalization in `ClaudeBackend.execute`: on exit code 0, parse
stdout as JSON and take `parsed.result || parsed.response || parsed.output
|| stdout`; on parse failure the raw stdout; on non-zero exit the output
variable keeps its initial empty-string value. -/
def claudeNormalize (penv : ProcEnv) (exitCode : Int) (stdout : String) : JsValue :=
  if exitCode == 0 then
    match penv.jsonParse stdout with
    | some parsed =>
        jsOrV (getField parsed "result")
          (jsOrV (getField parsed "response")
            (jsOrV (getField parsed "output") (.str stdout)))
    | none => .str stdout
  else
    .str ""

/-- `error: exitCode !== 0 ? stderr || "Execution failed" : undefined`. -/
def resultError (exitCode : Int) (stderr : String) : Option String :=
  if exitCode != 0 then some (if stderr == "" then "Execution failed" else stderr)
  else none

/-- `ClaudeBackend.execute` from `backends/claude.ts`. -/
def claudeExecute (penv : ProcEnv) (options : ExecuteOptions) : ExecutionResult :=
  match penv.run (claudeSpawnPlan options) with
  | .spawnError message =>
      { success := false, backend := "claude", output := .str "", stdout := ""
      , stderr := message, exitCode := -1, error := some message }
  | .finished exitCode stdout stderr =>
      { success := exitCode == 0, backend := "claude"
      , output := claudeNormalize penv exitCode stdout
      , stdout := stdout, stderr := stderr, exitCode := exitCode
      , error := resultError exitCode stderr }
  | .killedOnTimeout exitCode stdout stderr =>
      { success := exitCode == 0, backend := "claude"
      , output := claudeNormalize penv exitCode stdout
      , stdout := stdout, stderr := stderr, exitCode := exitCode
      , error := resultError exitCode stderr }

/-- Spawn plan built by `CodexBackend.execute` (same destructuring default
timeout). -/
def codexSpawnPlan (options : ExecuteOptions) : SpawnPlan :=
  { cmd := ["codex", "exec", options.prompt]
  , cwd := some options.workingDirectory
  , timeoutMs := some (options.timeout.getD 120000) }

/-- `CodexBackend.execute` from `backends/codex.ts`: no JSON normalization,
`output` is the raw stdout on every spawned run, regardless of exit code. -/
def codexExecute (penv : ProcEnv) (options : ExecuteOptions) : ExecutionResult :=
  match penv.run (codexSpawnPlan options) with
  | .spawnError message =>
      { success := false, backend := "codex", output := .str "", stdout := ""
      , stderr := message, exitCode := -1, error := some message }
  | .finished exitCode stdout stderr =>
      { success := exitCode == 0, backend := "codex", output := .str stdout
      , stdout := stdout, stderr := stderr, exitCode := exitCode
      , error := resultError exitCode stderr }
  | .killedOnTimeout exitCode stdout stderr =>
      { success := exitCode == 0, backend := "codex", output := .str stdout
      , stdout := stdout, stderr := stderr, exitCode := exitCode
      , error := resultError exitCode stderr }

/-- The spawn plan of a detection probe: `which <binName>`, no working
directory override, no timer armed. -/
def whichPlan (binName : String) : SpawnPlan :=
  { cmd := ["which", binName], cwd := none, timeoutMs := none }

/-- The `which`-based detection probe shared by the adapters: spawn
`which <binName>`, return `exitCode === 0`, and collapse a spawn failure to
false. -/
def detectVia (binName : String) (penv : ProcEnv) : Bool :=
  match penv.run (whichPlan binName) with
  | .spawnError _ => false
  | .finished exitCode _ _ => exitCode == 0
  | .killedOnTimeout exitCode _ _ => exitCode == 0

/-- The `Backend` contract from `types.ts`, with promises evaluated. -/
structure Backend where
  name : String
  detect : ProcEnv → Bool
  capabilities : BackendCapabilities
  execute : ProcEnv → ExecuteOptions → ExecutionResult

/-- `ClaudeBackend` from `backends/claude.ts`. -/
def ClaudeBackend : Backend :=
  { name := "claude"
  , detect := detectVia "claude"
  , capabilities := { canReadCodebase := true, supportsHeadless := true, supportsJsonOutput := true }
  , execute := claudeExecute }

/-- `CodexBackend` from `backends/codex.ts`. -/
def CodexBackend : Backend :=
  { name := "codex"
  , detect := detectVia "codex"
  , capabilities := { canReadCodebase := true, supportsHeadless := true, supportsJsonOutput := false }
  , execute := codexExecute }

/-- Modelled from the spec: `backends/cursor.ts` is not among the provided
sources (only its registration in `backends/index.ts`, the README table and
the CLI refer to it).  Per the README and CLI: name `cursor`, launch command
`cursor-agent` with args `-p --output-format json`, all three capabilities
true, JSON output normalization like the claude adapter. -/
def cursorExecute (penv : ProcEnv) (options : ExecuteOptions) : ExecutionResult :=
  match penv.run { cmd := ["cursor-agent", "-p", "--output-format", "json", options.prompt]
                 , cwd := some options.workingDirectory
                 , timeoutMs := some (options.timeout.getD 120000) } with
  | .spawnError message =>
      { success := false, backend := "cursor", output := .str "", stdout := ""
      , stderr := message, exitCode := -1, error := some message }
  | .finished exitCode stdout stderr =>
      { success := exitCode == 0, backend := "cursor"
      , output := claudeNormalize penv exitCode stdout
      , stdout := stdout, stderr := stderr, exitCode := exitCode
      , error := resultError exitCode stderr }
  | .killedOnTimeout exitCode stdout stderr =>
      { success := exitCode == 0, backend := "cursor"
      , output := claudeNormalize penv exitCode stdout
      , stdout := stdout, stderr := stderr, exitCode := exitCode
      , error := resultError exitCode stderr }

/-- Modelled from the spec: the cursor adapter instance registered in
`backends/index.ts` (source file not provided). -/
def CursorBackend : Backend :=
  { name := "cursor"
  , detect := detectVia "cursor-agent"
  , capabilities := { canReadCodebase := true, supportsHeadless := true, supportsJsonOutput := true }
  , execute := cursorExecute }

/-- `ALL_BACKENDS` from `backends/index.ts`, in registry insertion order. -/
def ALL_BACKENDS : List Backend := [ClaudeBackend, CodexBackend, CursorBackend]

/-- `DetectedBackend` from `backends/index.ts`. -/
structure DetectedBackend where
  name : String
  installed : Bool
  capabilities : BackendCapabilities
deriving Repr, BEq

/-- `detectBackends` from `backends/index.ts`: `Promise.all` over the
registry preserves the registry order in the result list regardless of the
completion order of the concurrent probes, which the list map models. -/
def detectBackends (penv : ProcEnv) : List DetectedBackend :=
  ALL_BACKENDS.map (fun b =>
    { name := b.name, installed := b.detect penv, capabilities := b.capabilities })

/-- `getBackend` from `backends/index.ts` (`find || null`). -/
def getBackend (name : String) : Option Backend :=
  ALL_BACKENDS.find? (fun b => b.name == name)

/-- The errors raised by the façade (`errors.ts`): the two dedicated error
classes, plus the plain invalid-configuration `Error` propagated out of
`loadConfig`.  `backendNotFound` carries the resolved backend value exactly
as the `BackendNotFoundError` constructor receives it. -/
inductive CilantroError where
  | notInitialized
  | backendNotFound (backendName : JsValue)
  | invalidConfig (message : String)
deriving Repr, BEq

/-- `ExecutePromptOptions` from `index.ts`. -/
structure ExecutePromptOptions where
  prompt : String
  workingDirectory : String
  backend : Option String
  timeout : Option Int
deriving Repr, BEq

/-- The ambient state read by the façade: the configuration file and the
`CILANTRO_BACKEND` environment variable. -/
structure ExecWorld where
  configFile : Option FileContent
  envBackend : Option String
deriving Repr, BEq

/-- JS `a || b` where `a : string | undefined` (empty string is falsy). -/
def jsOrS (a : Option String) (b : JsValue) : JsValue :=
  match a with
  | some s => if s == "" then b else .str s
  | none => b

/-- Line 68 of `index.ts`:
`options.backend || process.env.CILANTRO_BACKEND || config.defaultBackend`. -/
def resolvedBackendName (explicitName envName : Option String) (dflt : JsValue) : JsValue :=
  jsOrS explicitName (jsOrS envName dflt)

/-- Registry lookup applied to the resolved value: JS strict equality
`b.name === name` is false whenever the resolved value is not a string. -/
def getBackendJs (v : JsValue) : Option Backend :=
  match v with
  | .str s => getBackend s
  | _ => none

/-- JS `a || b` on numbers (`0` is falsy), as in
`options.timeout || config.timeout`. -/
def jsOrN (a : Option Int) (b : Int) : Int :=
  match a with
  | some n => if n == 0 then b else n
  | none => b

/-- The validated configuration's `timeout` field as a number (validation
guarantees the `.num` case). -/
def configTimeoutNum (c : RawConfig) : Int :=
  match c.timeout with
  | some (.num n) => n
  | _ => 0

/-- `executePrompt` from `index.ts`.  A thrown error is an `.error` value:
the invalid-configuration error from `loadConfig` propagates out of the
façade unwrapped. -/
def executePrompt (penv : ProcEnv) (w : ExecWorld) (options : ExecutePromptOptions) :
    Except CilantroError ExecutionResult :=
  match loadConfig w.configFile with
  | .error message => .error (.invalidConfig message)
  | .ok none => .error .notInitialized
  | .ok (some config) =>
      let backendName :=
        resolvedBackendName options.backend w.envBackend (config.defaultBackend.getD .null)
      match getBackendJs backendName with
      | none => .error (.backendNotFound backendName)
      | some backend =>
          let executeOptions : ExecuteOptions :=
            { prompt := options.prompt
            , workingDirectory := options.workingDirectory
            , timeout := some (jsOrN options.timeout (configTimeoutNum config)) }
          .ok (backend.execute penv executeOptions)

/-! ### Helper lemmas -/

/-- `loadConfig` reports absence exactly for a missing file. -/
theorem loadConfig_eq_ok_none_iff (file : Option FileContent) :
    loadConfig file = .ok none ↔ file = none := by
  cases file with
  | none => simp [loadConfig]
  | some f =>
    constructor
    · intro h
      exfalso
      cases f with
      | malformed m => simp [loadConfig] at h
      | parsed c =>
        simp only [loadConfig] at h
        split at h
        · simp at h
        · split at h
          · simp at h
          · split at h
            · simp at h
            · simp at h
    · intro h
      exact Option.noConfusion h

/-- On an existing file, `loadConfig` either throws or returns that file's
parsed document. -/
theorem loadConfig_some_cases (f : FileContent) :
    (∃ e, loadConfig (some f) = .error e) ∨
    (∃ c, f = .parsed c ∧ loadConfig (some f) = .ok (some c)) := by
  cases f with
  | malformed m => exact Or.inl ⟨_, rfl⟩
  | parsed c =>
    simp only [loadConfig]
    split
    · exact Or.inl ⟨_, rfl⟩
    · split
      · exact Or.inl ⟨_, rfl⟩
      · split
        · exact Or.inl ⟨_, rfl⟩
        · exact Or.inr ⟨c, rfl, rfl⟩

/-- Decoding inverts encoding on lists of JSON strings. -/
theorem decodeStrings_encode (l : List String) :
    decodeStrings (l.map .str) = some l := by
  induction l with
  | nil => rfl
  | cons hd tl ih => simp [decodeStrings, ih]

/-- Decoding inverts encoding on one backend launch spec. -/
theorem decodeBackendConfig_encode (bc : BackendConfig) :
    decodeBackendConfig (encodeBackendConfig bc) = some bc := by
  simp [decodeBackendConfig, encodeBackendConfig, decodeStrings_encode]

/-- Decoding inverts encoding on the backends map. -/
theorem decodeBackends_encode (l : List (String × BackendConfig)) :
    decodeBackends (l.map (fun p => (p.1, encodeBackendConfig p.2))) = some l := by
  induction l with
  | nil => rfl
  | cons hd tl ih => simp [decodeBackends, decodeBackendConfig_encode, ih]

/-- Loading the saved image of a configuration with a non-empty default
backend succeeds with exactly that image. -/
theorem loadConfig_encodeConfig (c : CilantroConfig) (h : c.defaultBackend ≠ "") :
    loadConfig (some (.parsed (encodeConfig c))) = .ok (some (encodeConfig c)) := by
  unfold loadConfig
  simp [encodeConfig, truthyOpt, truthy, typeofObjectOpt, typeofObject,
    typeofNumberOpt, typeofNumber, h]

/-- Validation outcome of `loadConfig` on a parsed document: either it
throws, or all three field checks passed and the document is returned. -/
theorem loadConfig_parsed_validation (c : RawConfig) :
    (∃ e, loadConfig (some (.parsed c)) = .error e) ∨
    (truthyOpt c.defaultBackend = true ∧ truthyOpt c.backends = true ∧
     typeofObjectOpt c.backends = true ∧ typeofNumberOpt c.timeout = true ∧
     loadConfig (some (.parsed c)) = .ok (some c)) := by
  by_cases h1 : truthyOpt c.defaultBackend = true
  · by_cases h2 : truthyOpt c.backends = true
    · by_cases h3 : typeofObjectOpt c.backends = true
      · by_cases h4 : typeofNumberOpt c.timeout = true
        · refine Or.inr ⟨h1, h2, h3, h4, ?_⟩
          simp [loadConfig, h1, h2, h3, h4]
        · exact Or.inl ⟨"Config missing or invalid timeout field",
            by simp [loadConfig, h1, h2, h3, h4]⟩
      · exact Or.inl ⟨"Config missing or invalid backends field",
          by simp [loadConfig, h1, h3]⟩
    · exact Or.inl ⟨"Config missing or invalid backends field",
        by simp [loadConfig, h1, h2]⟩
  · exact Or.inl ⟨"Config missing defaultBackend field", by simp [loadConfig, h1]⟩

/-! ### Claim theorems -/

/-- C8: the configuration store distinguishes absence from invalidity:
`loadConfig` reports absence exactly when no file exists; when the file
exists but is malformed JSON or lacks one of the three required fields it
throws (it never reports absence); `isInitialized` is true iff the file
exists and `loadConfig` succeeds on it, and reports false — rather than
throwing — on any parse or validation failure. -/
theorem c8_config_store_error_distinction (file : Option FileContent) :
    (loadConfig file = .ok none ↔ file = none)
  ∧ (∀ message, file = some (.malformed message) → ∃ e, loadConfig file = .error e)
  ∧ (∀ c, file = some (.parsed c) →
       c.defaultBackend = none ∨ c.backends = none ∨ c.timeout = none →
       ∃ e, loadConfig file = .error e)
  ∧ (isInitialized file = true ↔ ∃ c, loadConfig file = .ok (some c)) := by
  refine ⟨loadConfig_eq_ok_none_iff file, ?_, ?_, ?_⟩
  · intro message hm
    subst hm
    exact ⟨_, rfl⟩
  · intro c hc hfield
    subst hc
    rcases loadConfig_parsed_validation c with ⟨e, he⟩ | ⟨h1, h2, _, h4, _⟩
    · exact ⟨e, he⟩
    · exfalso
      rcases hfield with h | h | h
      · rw [h] at h1; simp [truthyOpt] at h1
      · rw [h] at h2; simp [truthyOpt] at h2
      · rw [h] at h4; simp [typeofNumberOpt] at h4
  · cases file with
    | none =>
      simp [isInitialized, loadConfig]
    | some f =>
      rcases loadConfig_some_cases f with ⟨e, he⟩ | ⟨c, _, hok⟩
      · simp [isInitialized, he]
      · simp [isInitialized, hok]

/-- Witness for C8 at the concrete document missing all three fields. -/
theorem c8_witness :
    ∃ e, loadConfig (some (.parsed { defaultBackend := none, backends := none, timeout := none }))
      = .error e :=
  (c8_config_store_error_distinction
      (some (.parsed { defaultBackend := none, backends := none, timeout := none }))).2.2.1
    { defaultBackend := none, backends := none, timeout := none } rfl (Or.inl rfl)

/-- C9: saving a valid configuration (non-empty default backend) twice and
loading yields a value structurally equal to the saved configuration, and
the same holds after a single save: the load result is the JSON image
`encodeConfig c`, which decodes back to exactly `c`. -/
theorem c9_save_load_round_trip (c : CilantroConfig) (file : Option FileContent)
    (h : c.defaultBackend ≠ "") :
    loadConfig (saveConfig c (saveConfig c file)) = .ok (some (encodeConfig c))
  ∧ loadConfig (saveConfig c file) = .ok (some (encodeConfig c))
  ∧ decodeConfig (encodeConfig c) = some c := by
  refine ⟨loadConfig_encodeConfig c h, loadConfig_encodeConfig c h, ?_⟩
  simp [decodeConfig, encodeConfig, decodeBackends_encode]

/-- A sample valid configuration, as written by the `init` command. -/
def sampleCilantroConfig : CilantroConfig :=
  { defaultBackend := "claude"
  , backends := [("claude", { command := "claude", args := ["-p", "--output-format", "json"] })]
  , timeout := 120000 }

/-- Witness for C9 at a concrete configuration. -/
theorem c9_witness :
    loadConfig (saveConfig sampleCilantroConfig (saveConfig sampleCilantroConfig none))
      = .ok (some (encodeConfig sampleCilantroConfig))
  ∧ loadConfig (saveConfig sampleCilantroConfig none)
      = .ok (some (encodeConfig sampleCilantroConfig))
  ∧ decodeConfig (encodeConfig sampleCilantroConfig) = some sampleCilantroConfig :=
  c9_save_load_round_trip sampleCilantroConfig none (by simp [sampleCilantroConfig])

/-! ### Concrete sample environments and worlds, used to instantiate the
claim theorems at closed inputs. -/

/-- A process environment in which every spawn finishes at once with exit
code 0 and empty streams, and JSON parsing always fails. -/
def trivialEnv : ProcEnv :=
  { run := fun _ => .finished 0 "" "", jsonParse := fun _ => none }

/-- A process environment in which every spawn throws. -/
def spawnFailEnv : ProcEnv :=
  { run := fun _ => .spawnError "ENOENT", jsonParse := fun _ => none }

/-- A world with no configuration file. -/
def emptyWorld : ExecWorld := { configFile := none, envBackend := none }

/-- A world whose configuration file exists but is not valid JSON. -/
def malformedWorld : ExecWorld :=
  { configFile := some (.malformed "Unexpected token"), envBackend := none }

/-- A world with a valid saved configuration and the environment override
set. -/
def sampleWorld : ExecWorld :=
  { configFile := some (.parsed (encodeConfig sampleCilantroConfig))
  , envBackend := some "cursor" }

/-- A world with a valid saved configuration and no environment override. -/
def claudeWorld : ExecWorld :=
  { configFile := some (.parsed (encodeConfig sampleCilantroConfig))
  , envBackend := none }

/-- Sample façade options. -/
def sampleExecutePromptOptions : ExecutePromptOptions :=
  { prompt := "hi", workingDirectory := "/tmp", backend := none, timeout := none }

/-- Sample adapter options. -/
def sampleExecuteOptions : ExecuteOptions :=
  { prompt := "q", workingDirectory := "/tmp", timeout := none }

/-- C1: backend resolution priority in `executePrompt`.  With a loaded
configuration, a non-empty explicit per-call backend wins; with no explicit
value a non-empty environment override is used; with neither, the
configuration's default.  The façade then uses exactly the resolved value:
it delegates to the adapter registered under it, or raises
`BackendNotFoundError` carrying it. -/
theorem c1_backend_resolution_priority (penv : ProcEnv) (w : ExecWorld)
    (options : ExecutePromptOptions) (config : RawConfig)
    (hload : loadConfig w.configFile = .ok (some config)) :
    (∀ e, options.backend = some e → e ≠ "" →
       resolvedBackendName options.backend w.envBackend (config.defaultBackend.getD .null)
         = .str e)
  ∧ (∀ s, options.backend = none → w.envBackend = some s → s ≠ "" →
       resolvedBackendName options.backend w.envBackend (config.defaultBackend.getD .null)
         = .str s)
  ∧ (options.backend = none → w.envBackend = none →
       resolvedBackendName options.backend w.envBackend (config.defaultBackend.getD .null)
         = config.defaultBackend.getD .null)
  ∧ (∀ b, getBackendJs (resolvedBackendName options.backend w.envBackend
        (config.defaultBackend.getD .null)) = some b →
       executePrompt penv w options = .ok (b.execute penv
         { prompt := options.prompt
         , workingDirectory := options.workingDirectory
         , timeout := some (jsOrN options.timeout (configTimeoutNum config)) }))
  ∧ (getBackendJs (resolvedBackendName options.backend w.envBackend
        (config.defaultBackend.getD .null)) = none →
       executePrompt penv w options = .error (.backendNotFound
         (resolvedBackendName options.backend w.envBackend (config.defaultBackend.getD .null)))) := by
  refine ⟨?_, ?_, ?_, ?_, ?_⟩
  · intro e he hne
    simp [resolvedBackendName, jsOrS, he, hne]
  · intro s hb he hne
    simp [resolvedBackendName, jsOrS, hb, he, hne]
  · intro hb he
    simp [resolvedBackendName, jsOrS, hb, he]
  · intro b hb
    simp [executePrompt, hload, hb]
  · intro hb
    simp [executePrompt, hload, hb]

/-- Witness for C1: explicit `codex` beats both the environment override
`cursor` and the configured default `claude`, and the façade delegates to
the codex adapter. -/
theorem c1_witness :
    resolvedBackendName (some "codex") (some "cursor")
        ((encodeConfig sampleCilantroConfig).defaultBackend.getD .null)
      = .str "codex"
  ∧ executePrompt trivialEnv sampleWorld
      { prompt := "hi", workingDirectory := "/tmp", backend := some "codex", timeout := none }
      = .ok (CodexBackend.execute trivialEnv
          { prompt := "hi", workingDirectory := "/tmp", timeout := some 120000 }) :=
  ⟨(c1_backend_resolution_priority trivialEnv sampleWorld
      { prompt := "hi", workingDirectory := "/tmp", backend := some "codex", timeout := none }
      (encodeConfig sampleCilantroConfig) rfl).1 "codex" rfl (by simp),
   (c1_backend_resolution_priority trivialEnv sampleWorld
      { prompt := "hi", workingDirectory := "/tmp", backend := some "codex", timeout := none }
      (encodeConfig sampleCilantroConfig) rfl).2.2.2.1 CodexBackend rfl⟩

/-- Counterexample for C2 as stated: with an existing but malformed
configuration file, no configuration is loadable, yet `executePrompt` does
not raise `CilantroNotInitializedError` — it propagates the plain
invalid-configuration error thrown by `loadConfig`, a third raised error
kind. -/
theorem c2_counterexample :
    executePrompt trivialEnv malformedWorld sampleExecutePromptOptions
      = .error (.invalidConfig ("Invalid JSON in config file: " ++ "Unexpected token"))
  ∧ ¬ ((executePrompt trivialEnv malformedWorld sampleExecutePromptOptions
          = .error .notInitialized)
        ↔ ¬ ∃ config, loadConfig malformedWorld.configFile = .ok (some config)) := by
  constructor
  · rfl
  · intro hiff
    have h2 : ¬ ∃ config, loadConfig malformedWorld.configFile = .ok (some config) := by
      rintro ⟨config, hc⟩
      simp [malformedWorld, loadConfig] at hc
    have h3 := hiff.mpr h2
    rw [show executePrompt trivialEnv malformedWorld sampleExecutePromptOptions
          = .error (.invalidConfig ("Invalid JSON in config file: " ++ "Unexpected token"))
        from rfl] at h3
    simp at h3

/-- C2 (amended): `executePrompt` raises `CilantroNotInitializedError` iff
the configuration file is absent; it propagates the invalid-configuration
error iff `loadConfig` throws it; it raises `BackendNotFoundError` carrying
exactly the resolved backend value iff the configuration loads and the
resolved value matches no registered adapter; and every raised error is
independent of the process environment — no adapter is invoked and no
subprocess is spawned on a raising run, and the execution outcome itself is
never raised. -/
theorem c2_facade_raises_iff (penv : ProcEnv) (w : ExecWorld)
    (options : ExecutePromptOptions) :
    (executePrompt penv w options = .error .notInitialized ↔ w.configFile = none)
  ∧ (∀ m, executePrompt penv w options = .error (.invalidConfig m)
        ↔ loadConfig w.configFile = .error m)
  ∧ (∀ n, executePrompt penv w options = .error (.backendNotFound n)
        ↔ ∃ config, loadConfig w.configFile = .ok (some config)
            ∧ n = resolvedBackendName options.backend w.envBackend
                    (config.defaultBackend.getD .null)
            ∧ getBackendJs n = none)
  ∧ (∀ e, executePrompt penv w options = .error e →
        ∀ penv2 : ProcEnv, executePrompt penv2 w options = .error e) := by
  cases hl : loadConfig w.configFile with
  | error msg =>
    have hrun : ∀ p : ProcEnv, executePrompt p w options = .error (.invalidConfig msg) := by
      intro p
      simp [executePrompt, hl]
    have hne : w.configFile ≠ none := by
      intro h
      rw [h] at hl
      simp [loadConfig] at hl
    refine ⟨?_, ?_, ?_, ?_⟩
    · rw [hrun penv]
      constructor
      · intro h
        exact CilantroError.noConfusion (Except.error.inj h)
      · intro h
        exact absurd h hne
    · intro m
      rw [hrun penv]
      constructor
      · intro h
        rw [CilantroError.invalidConfig.inj (Except.error.inj h)]
      · intro h
        rw [Except.error.inj h]
    · intro n
      rw [hrun penv]
      constructor
      · intro h
        exact CilantroError.noConfusion (Except.error.inj h)
      · rintro ⟨config, hc, -, -⟩
        exact Except.noConfusion hc
    · intro e he penv2
      rw [hrun penv2]
      rw [hrun penv] at he
      exact he
  | ok oc =>
    cases oc with
    | none =>
      have hnone : w.configFile = none := (loadConfig_eq_ok_none_iff w.configFile).mp hl
      have hrun : ∀ p : ProcEnv, executePrompt p w options = .error .notInitialized := by
        intro p
        simp [executePrompt, hl]
      refine ⟨?_, ?_, ?_, ?_⟩
      · rw [hrun penv]
        simp [hnone]
      · intro m
        rw [hrun penv]
        constructor
        · intro h
          exact CilantroError.noConfusion (Except.error.inj h)
        · intro h
          exact Except.noConfusion h
      · intro n
        rw [hrun penv]
        constructor
        · intro h
          exact CilantroError.noConfusion (Except.error.inj h)
        · rintro ⟨config, hc, -, -⟩
          exact Option.noConfusion (Except.ok.inj hc)
      · intro e he penv2
        rw [hrun penv2]
        rw [hrun penv] at he
        exact he
    | some config =>
      cases hg : getBackendJs (resolvedBackendName options.backend w.envBackend
          (config.defaultBackend.getD .null)) with
      | none =>
        have hrun : ∀ p : ProcEnv, executePrompt p w options
            = .error (.backendNotFound (resolvedBackendName options.backend w.envBackend
                (config.defaultBackend.getD .null))) := by
          intro p
          simp [executePrompt, hl, hg]
        have hne : w.configFile ≠ none := by
          intro h
          rw [h] at hl
          simp [loadConfig] at hl
        refine ⟨?_, ?_, ?_, ?_⟩
        · rw [hrun penv]
          constructor
          · intro h
            exact CilantroError.noConfusion (Except.error.inj h)
          · intro h
            exact absurd h hne
        · intro m
          rw [hrun penv]
          constructor
          · intro h
            exact CilantroError.noConfusion (Except.error.inj h)
          · intro h
            exact Except.noConfusion h
        · intro n
          rw [hrun penv]
          constructor
          · intro h
            have hn := CilantroError.backendNotFound.inj (Except.error.inj h)
            refine ⟨config, rfl, hn.symm, ?_⟩
            rw [← hn]
            exact hg
          · rintro ⟨config2, hc2, hn2, -⟩
            have hcc : config = config2 :=
              Option.some.inj (Except.ok.inj hc2)
            rw [hn2, ← hcc]
        · intro e he penv2
          rw [hrun penv2]
          rw [hrun penv] at he
          exact he
      | some b =>
        have hrun : ∀ p : ProcEnv, executePrompt p w options
            = .ok (b.execute p
                { prompt := options.prompt
                , workingDirectory := options.workingDirectory
                , timeout := some (jsOrN options.timeout (configTimeoutNum config)) }) := by
          intro p
          simp [executePrompt, hl, hg]
        refine ⟨?_, ?_, ?_, ?_⟩
        · rw [hrun penv]
          constructor
          · intro h
            exact Except.noConfusion h
          · intro h
            rw [h] at hl
            simp [loadConfig] at hl
        · intro m
          rw [hrun penv]
          constructor
          · intro h
            exact Except.noConfusion h
          · intro h
            exact Except.noConfusion h
        · intro n
          rw [hrun penv]
          constructor
          · intro h
            exact Except.noConfusion h
          · rintro ⟨config2, hc2, hn2, hgn⟩
            exfalso
            have hcc : config = config2 :=
              Option.some.inj (Except.ok.inj hc2)
            rw [hn2, ← hcc] at hgn
            rw [hg] at hgn
            exact Option.noConfusion hgn
        · intro e he
          rw [hrun penv] at he
          exact absurd he (fun hh => Except.noConfusion hh)

/-- Witness for C2 (amended) at the world with no configuration file. -/
theorem c2_witness :
    executePrompt trivialEnv emptyWorld sampleExecutePromptOptions
      = .error .notInitialized :=
  (c2_facade_raises_iff trivialEnv emptyWorld sampleExecutePromptOptions).1.mpr rfl

/-- C3: the adapters are total (they never raise — every spawn failure is
caught), and every failure path produces a returned result with
`success = false` and both `exitCode` and `error` populated: a spawn
failure yields the full catch-branch result, and a non-zero exit — whether
the process exited on its own or was killed at the timeout deadline (a
forcibly terminated process never reports status 0, hence the non-zero
hypothesis on the killed case) — yields `success = false` with the exit
code and a non-empty error message. -/
theorem c3_adapter_failures_are_results (penv : ProcEnv) (options : ExecuteOptions) :
    (∀ m, penv.run (claudeSpawnPlan options) = .spawnError m →
        claudeExecute penv options
          = { success := false, backend := "claude", output := .str "", stdout := ""
            , stderr := m, exitCode := -1, error := some m })
  ∧ (∀ code out err, penv.run (claudeSpawnPlan options) = .finished code out err →
        code ≠ 0 →
        (claudeExecute penv options).success = false
      ∧ (claudeExecute penv options).exitCode = code
      ∧ (claudeExecute penv options).error.isSome = true)
  ∧ (∀ code out err, penv.run (claudeSpawnPlan options) = .killedOnTimeout code out err →
        code ≠ 0 →
        (claudeExecute penv options).success = false
      ∧ (claudeExecute penv options).exitCode = code
      ∧ (claudeExecute penv options).error.isSome = true)
  ∧ (∀ m, penv.run (codexSpawnPlan options) = .spawnError m →
        codexExecute penv options
          = { success := false, backend := "codex", output := .str "", stdout := ""
            , stderr := m, exitCode := -1, error := some m })
  ∧ (∀ code out err, penv.run (codexSpawnPlan options) = .finished code out err →
        code ≠ 0 →
        (codexExecute penv options).success = false
      ∧ (codexExecute penv options).exitCode = code
      ∧ (codexExecute penv options).error.isSome = true)
  ∧ (∀ code out err, penv.run (codexSpawnPlan options) = .killedOnTimeout code out err →
        code ≠ 0 →
        (codexExecute penv options).success = false
      ∧ (codexExecute penv options).exitCode = code
      ∧ (codexExecute penv options).error.isSome = true) := by
  refine ⟨?_, ?_, ?_, ?_, ?_, ?_⟩
  · intro m hrun
    simp [claudeExecute, hrun]
  · intro code out err hrun hcode
    simp [claudeExecute, hrun, resultError, hcode]
  · intro code out err hrun hcode
    simp [claudeExecute, hrun, resultError, hcode]
  · intro m hrun
    simp [codexExecute, hrun]
  · intro code out err hrun hcode
    simp [codexExecute, hrun, resultError, hcode]
  · intro code out err hrun hcode
    simp [codexExecute, hrun, resultError, hcode]

/-- Witness for C3 at an environment in which every spawn throws. -/
theorem c3_witness :
    claudeExecute spawnFailEnv sampleExecuteOptions
      = { success := false, backend := "claude", output := .str "", stdout := ""
        , stderr := "ENOENT", exitCode := -1, error := some "ENOENT" } :=
  (c3_adapter_failures_are_results spawnFailEnv sampleExecuteOptions).1 "ENOENT" rfl

/-- The amended claim's normalization rule, in its own words: the value of
the first field among the listed names whose value is truthy. -/
def specFirstTruthyField (parsed : JsValue) : List String → Option JsValue
  | [] => none
  | k :: rest =>
      match getField parsed k with
      | some v => if truthy v then some v else specFirstTruthyField parsed rest
      | none => specFirstTruthyField parsed rest

/-- The code's `a || b || c || dflt` chain equals the first-truthy-field
rule of the amended claim. -/
theorem jsOrV_chain_eq (parsed : JsValue) (dflt : JsValue) (keys : List String) :
    keys.foldr (fun k acc => jsOrV (getField parsed k) acc) dflt
      = (specFirstTruthyField parsed keys).getD dflt := by
  induction keys with
  | nil => rfl
  | cons k rest ih =>
    simp only [List.foldr, specFirstTruthyField]
    rw [ih]
    cases h : getField parsed k with
    | none => simp [jsOrV, h]
    | some v =>
      by_cases ht : truthy v = true
      · simp [jsOrV, h, ht]
      · simp [jsOrV, h, ht]

/-- An environment whose spawned process fails with exit code 1 and
non-empty partial stdout. -/
def codexFailEnv : ProcEnv :=
  { run := fun _ => .finished 1 "partial" "boom", jsonParse := fun _ => none }

/-- Counterexample for C4 as stated: the codex adapter, on a non-zero exit
code, returns the raw stdout as the normalized output — not the empty
string the claim requires for every adapter. -/
theorem c4_counterexample :
    (codexExecute codexFailEnv sampleExecuteOptions).exitCode = 1
  ∧ (codexExecute codexFailEnv sampleExecuteOptions).output = .str "partial"
  ∧ (codexExecute codexFailEnv sampleExecuteOptions).output ≠ .str "" := by
  refine ⟨rfl, rfl, ?_⟩
  intro h
  exact absurd (JsValue.str.inj h) (by decide)

/-- C4 (amended): for the claude adapter, on exit code zero the normalized
output is the value of the first field among `result`, `response`, `output`
whose value is truthy, parsed from stdout, falling back to raw stdout when
parsing fails or no listed field has a truthy value; on non-zero exit its
output is empty and the error is stderr, or a generic failure string when
stderr is empty.  For the codex adapter the normalized output is the raw
stdout regardless of exit code, with the same error rule on non-zero
exit. -/
theorem c4_output_normalization (penv : ProcEnv) (options : ExecuteOptions) :
    (∀ code out err, penv.run (claudeSpawnPlan options) = .finished code out err →
       ((code = 0 → penv.jsonParse out = none →
            (claudeExecute penv options).output = .str out)
      ∧ (∀ parsed, code = 0 → penv.jsonParse out = some parsed →
            (claudeExecute penv options).output
              = (specFirstTruthyField parsed ["result", "response", "output"]).getD (.str out))
      ∧ (code ≠ 0 →
            (claudeExecute penv options).output = .str ""
          ∧ (claudeExecute penv options).error
              = some (if err == "" then "Execution failed" else err))))
  ∧ (∀ code out err, penv.run (codexSpawnPlan options) = .finished code out err →
       ((codexExecute penv options).output = .str out
      ∧ (code ≠ 0 →
            (codexExecute penv options).error
              = some (if err == "" then "Execution failed" else err)))) := by
  constructor
  · intro code out err hrun
    refine ⟨?_, ?_, ?_⟩
    · intro hcode hparse
      simp [claudeExecute, hrun, claudeNormalize, hcode, hparse]
    · intro parsed hcode hparse
      have hchain := jsOrV_chain_eq parsed (.str out) ["result", "response", "output"]
      simp only [List.foldr] at hchain
      simp [claudeExecute, hrun, claudeNormalize, hcode, hparse]
      exact hchain
    · intro hcode
      constructor
      · simp [claudeExecute, hrun, claudeNormalize, hcode]
      · simp [claudeExecute, hrun, resultError, hcode]
  · intro code out err hrun
    constructor
    · simp [codexExecute, hrun]
    · intro hcode
      simp [codexExecute, hrun, resultError, hcode]

/-- Witness for C4 (amended) at the failing codex run. -/
theorem c4_witness :
    (codexExecute codexFailEnv sampleExecuteOptions).output = .str "partial"
  ∧ (codexExecute codexFailEnv sampleExecuteOptions).error
      = some (if "boom" == "" then "Execution failed" else "boom") :=
  ⟨((c4_output_normalization codexFailEnv sampleExecuteOptions).2 1 "partial" "boom" rfl).1,
   ((c4_output_normalization codexFailEnv sampleExecuteOptions).2 1 "partial" "boom" rfl).2
     (by decide)⟩

/-- An environment whose spawned process is killed at the timeout deadline
and reports the SIGTERM-derived exit code 143. -/
def killedEnv : ProcEnv :=
  { run := fun _ => .killedOnTimeout 143 "part" "killed", jsonParse := fun _ => none }

/-- Counterexample for C5 as stated: on a timeout kill the adapter reports
the exit code the runtime gives for the killed process (here 143), which
lies inside the valid process exit-code range 0..255 and differs from the
spawn-failure sentinel -1 — so spawn failure and timeout do not share a
single sentinel distinct from all valid exit codes. -/
theorem c5_counterexample :
    (claudeExecute killedEnv sampleExecuteOptions).exitCode = 143
  ∧ (claudeExecute killedEnv sampleExecuteOptions).exitCode ≠ -1
  ∧ (0 : Int) ≤ (claudeExecute killedEnv sampleExecuteOptions).exitCode
  ∧ (claudeExecute killedEnv sampleExecuteOptions).exitCode ≤ 255 := by
  exact ⟨rfl, by decide, by decide, by decide⟩

/-- C5 (amended): the spawn-failure catch branch reports the sentinel
exit code -1 (which is distinct from every valid process exit code
0..255); the timeout path reports whatever exit code the runtime gives for
the forcibly killed process — the kill's code, not the -1 sentinel and not
produced by the adapter. -/
theorem c5_exit_code_reporting (penv : ProcEnv) (options : ExecuteOptions) :
    (∀ m, penv.run (claudeSpawnPlan options) = .spawnError m →
        (claudeExecute penv options).exitCode = -1)
  ∧ (∀ code out err, penv.run (claudeSpawnPlan options) = .killedOnTimeout code out err →
        (claudeExecute penv options).exitCode = code)
  ∧ (∀ m, penv.run (codexSpawnPlan options) = .spawnError m →
        (codexExecute penv options).exitCode = -1)
  ∧ (∀ code out err, penv.run (codexSpawnPlan options) = .killedOnTimeout code out err →
        (codexExecute penv options).exitCode = code)
  ∧ (∀ code : Int, 0 ≤ code → code ≤ 255 →
        (claudeExecute penv options).exitCode = -1 →
        (claudeExecute penv options).exitCode ≠ code) := by
  refine ⟨?_, ?_, ?_, ?_, ?_⟩
  · intro m hrun
    simp [claudeExecute, hrun]
  · intro code out err hrun
    simp [claudeExecute, hrun]
  · intro m hrun
    simp [codexExecute, hrun]
  · intro code out err hrun
    simp [codexExecute, hrun]
  · intro code h0 h255 hm
    rw [hm]
    omega

/-- Witness for C5 (amended) at the killed and spawn-failure environments. -/
theorem c5_witness :
    (claudeExecute killedEnv sampleExecuteOptions).exitCode = 143
  ∧ (codexExecute spawnFailEnv sampleExecuteOptions).exitCode = -1 :=
  ⟨(c5_exit_code_reporting killedEnv sampleExecuteOptions).2.1 143 "part" "killed" rfl,
   (c5_exit_code_reporting spawnFailEnv sampleExecuteOptions).2.2.1 "ENOENT" rfl⟩

/-- An environment that records, in stdout, whether the plan's timeout was
the configured 5000ms. -/
def timeoutProbeEnv : ProcEnv :=
  { run := fun plan => .finished 0 (if plan.timeoutMs == some 5000 then "A" else "B") ""
  , jsonParse := fun _ => none }

/-- A configuration whose stored timeout is 5000ms. -/
def c6Config : CilantroConfig :=
  { defaultBackend := "claude"
  , backends := [("claude", { command := "claude", args := [] })]
  , timeout := 5000 }

/-- World holding `c6Config`. -/
def c6World : ExecWorld :=
  { configFile := some (.parsed (encodeConfig c6Config)), envBackend := none }

/-- Façade options passing an explicit timeout of 0. -/
def c6Options : ExecutePromptOptions :=
  { prompt := "hi", workingDirectory := "/tmp", backend := some "claude", timeout := some 0 }

/-- Counterexample for C6 as stated: with an explicit per-call timeout of 0
and a configured timeout of 5000, the adapter is invoked with timeout 5000
(`options.timeout || config.timeout` treats 0 as falsy), not with the given
explicit value 0. -/
theorem c6_counterexample :
    executePrompt timeoutProbeEnv c6World c6Options
      = .ok (ClaudeBackend.execute timeoutProbeEnv
          { prompt := "hi", workingDirectory := "/tmp", timeout := some 5000 })
  ∧ executePrompt timeoutProbeEnv c6World c6Options
      ≠ .ok (ClaudeBackend.execute timeoutProbeEnv
          { prompt := "hi", workingDirectory := "/tmp", timeout := some 0 }) := by
  constructor
  · rfl
  · intro h
    have hs := congrArg (fun r => match r with | .ok res => res.stdout | .error _ => "") h
    exact absurd hs (by decide)

/-- C6 (amended): on successful resolution the façade delegates to the
chosen adapter passing exactly the given prompt, the given working
directory, and the effective timeout — the explicit per-call timeout when
given and non-zero, else the configuration's stored timeout (an explicit 0
is falsy and falls back) — and returns the adapter's result unchanged,
whatever its success flag. -/
theorem c6_facade_pass_through (penv : ProcEnv) (w : ExecWorld)
    (options : ExecutePromptOptions) (config : RawConfig) (b : Backend)
    (hload : loadConfig w.configFile = .ok (some config))
    (hb : getBackendJs (resolvedBackendName options.backend w.envBackend
        (config.defaultBackend.getD .null)) = some b) :
    executePrompt penv w options = .ok (b.execute penv
      { prompt := options.prompt
      , workingDirectory := options.workingDirectory
      , timeout := some (jsOrN options.timeout (configTimeoutNum config)) })
  ∧ (∀ t, options.timeout = some t → t ≠ 0 →
       jsOrN options.timeout (configTimeoutNum config) = t)
  ∧ (options.timeout = none →
       jsOrN options.timeout (configTimeoutNum config) = configTimeoutNum config) := by
  refine ⟨by simp [executePrompt, hload, hb], ?_, ?_⟩
  · intro t ht hnz
    simp [jsOrN, ht, hnz]
  · intro ht
    simp [jsOrN, ht]

/-- Witness for C6 (amended): an explicit non-zero timeout of 60000 is
passed through to the adapter unchanged. -/
theorem c6_witness :
    executePrompt trivialEnv claudeWorld
      { prompt := "hi", workingDirectory := "/tmp", backend := some "claude", timeout := some 60000 }
      = .ok (ClaudeBackend.execute trivialEnv
          { prompt := "hi", workingDirectory := "/tmp", timeout := some 60000 }) :=
  (c6_facade_pass_through trivialEnv claudeWorld
    { prompt := "hi", workingDirectory := "/tmp", backend := some "claude", timeout := some 60000 }
    (encodeConfig sampleCilantroConfig) ClaudeBackend rfl rfl).1

/-- C7: `detectBackends` returns one entry per registered adapter in
registry insertion order whatever the environment (and hence whatever the
completion order of the concurrent probes, which cannot affect the
`Promise.all` result order), pairing each adapter's name and static
capabilities with its detection outcome; a failing detection probe cannot
fail the call — the adapter is reported with `installed = false`. -/
theorem c7_detect_all (penv : ProcEnv) :
    ((detectBackends penv).map (fun d => d.name) = ALL_BACKENDS.map (fun b => b.name))
  ∧ ((detectBackends penv).map (fun d => d.capabilities)
       = ALL_BACKENDS.map (fun b => b.capabilities))
  ∧ ((detectBackends penv).map (fun d => d.installed)
       = ALL_BACKENDS.map (fun b => b.detect penv))
  ∧ ((detectBackends penv).length = ALL_BACKENDS.length)
  ∧ ((detectBackends penv).map (fun d => d.name) = ["claude", "codex", "cursor"])
  ∧ (∀ binName m, penv.run (whichPlan binName) = .spawnError m →
       detectVia binName penv = false)
  ∧ (∀ m, penv.run (whichPlan "claude") = .spawnError m →
       ((detectBackends penv).map (fun d => d.installed))[0]? = some false)
  ∧ (∀ m, penv.run (whichPlan "codex") = .spawnError m →
       ((detectBackends penv).map (fun d => d.installed))[1]? = some false)
  ∧ (∀ m, penv.run (whichPlan "cursor-agent") = .spawnError m →
       ((detectBackends penv).map (fun d => d.installed))[2]? = some false) := by
  refine ⟨?_, ?_, ?_, ?_, ?_, ?_, ?_, ?_, ?_⟩
  · simp [detectBackends]
  · simp [detectBackends]
  · simp [detectBackends]
  · simp [detectBackends]
  · simp [detectBackends, ALL_BACKENDS, ClaudeBackend, CodexBackend, CursorBackend]
  · intro binName m hrun
    simp [detectVia, hrun]
  · intro m hrun
    simp [detectBackends, ALL_BACKENDS, ClaudeBackend, detectVia, hrun]
  · intro m hrun
    simp [detectBackends, ALL_BACKENDS, CodexBackend, detectVia, hrun]
  · intro m hrun
    simp [detectBackends, ALL_BACKENDS, CursorBackend, detectVia, hrun]

/-- Witness for C7: with every spawn throwing, the first adapter is still
reported, with `installed = false`. -/
theorem c7_witness :
    ((detectBackends spawnFailEnv).map (fun d => d.installed))[0]? = some false :=
  (c7_detect_all spawnFailEnv).2.2.2.2.2.2.1 "ENOENT" rfl

/-- C10: when a direct adapter call carries no timeout, the adapter arms a
built-in default of 120000 milliseconds in its spawn plan (the plan makes
no reference to any configuration — the adapters take none); an explicit
timeout, even 0, is used as given (the destructuring default applies only
to an absent field). -/
theorem c10_adapter_default_timeout (options : ExecuteOptions) :
    (options.timeout = none →
        (claudeSpawnPlan options).timeoutMs = some 120000
      ∧ (codexSpawnPlan options).timeoutMs = some 120000)
  ∧ (∀ t, options.timeout = some t →
        (claudeSpawnPlan options).timeoutMs = some t
      ∧ (codexSpawnPlan options).timeoutMs = some t) := by
  constructor
  · intro h
    simp [claudeSpawnPlan, codexSpawnPlan, h]
  · intro t h
    simp [claudeSpawnPlan, codexSpawnPlan, h]

/-- Witness for C10 at options with no timeout. -/
theorem c10_witness :
    (claudeSpawnPlan sampleExecuteOptions).timeoutMs = some 120000
  ∧ (codexSpawnPlan sampleExecuteOptions).timeoutMs = some 120000 :=
  (c10_adapter_default_timeout sampleExecuteOptions).1 rfl

end Cilantro
